import Mathlib

/-!
Verification of the asynchronous job result collector of the
`sagemakerHandsOn` notebooks (Textract document processing, Comprehend
Medical chunking, and the image-id train/validation/test split).

The embedding is shallow: the external Textract service is a parameter
(`Nat → GetDocResponse` for the time-indexed status polls, and
`Option String → GetDocResponse` for the token-indexed result-page
requests), and the notebook's loops are translated as fuelled recursive
functions.  `none` as a loop result means the fuel ran out while the
loop was still running; the notebook code itself raises no exception in
any of these cells, so the embedded loops have no error outcome at all.
-/

/-- A Textract content block as consumed by the notebook: its
`BlockType` (`"PAGE"`, `"LINE"`, ...) and its text. -/
structure Block where
  blockType : String
  text : String
deriving DecidableEq, Repr


/-- A `get_document_analysis` response as read by the notebook: the
`JobStatus` field, the `StatusMessage` field (present in the API reply
but never read by the notebook), the `Blocks` list and the optional
`NextToken`. -/
structure GetDocResponse where
  jobStatus : String
  statusMessage : String
  blocks : List Block
  nextToken : Option String
deriving DecidableEq, Repr


/-- The notebook's status-poll loop, from the monitoring cell:

    response = textract.get_document_analysis(JobId=textractJobId)
    status = response["JobStatus"]
    while(status == "IN_PROGRESS"):
        time.sleep(5)
        response = textract.get_document_analysis(JobId=textractJobId)
        status = response["JobStatus"]

`svc k` is the response of the `k`-th poll (0-based), `k` is the index
of the next poll to issue, and the result is the final `status` value
together with the total number of polls issued; `none` means the fuel
was exhausted while the status was still `"IN_PROGRESS"`. -/
def awaitLoop (svc : Nat → GetDocResponse) : Nat → Nat → Option (String × Nat)
  | 0, _ => none
  | fuel + 1, k =>
    if (svc k).jobStatus = "IN_PROGRESS" then awaitLoop svc fuel (k + 1)
    else some ((svc k).jobStatus, k + 1)


/-- Run the notebook's status-poll loop from the first poll. -/
def awaitCompletion (svc : Nat → GetDocResponse) (fuel : Nat) : Option (String × Nat) :=
  awaitLoop svc fuel 0


/-- Replace the `StatusMessage` field of a response, leaving everything
else unchanged.  Used to state that the poll loop never reads the
service-reported failure reason. -/
def setMessage (m : String) (r : GetDocResponse) : GetDocResponse :=
  ⟨r.jobStatus, m, r.blocks, r.nextToken⟩


/-- Replace the `JobStatus` field of a response, leaving everything else
unchanged.  Used to state that result collection never reads the job
status. -/
def setStatus (s : String) (r : GetDocResponse) : GetDocResponse :=
  ⟨s, r.statusMessage, r.blocks, r.nextToken⟩


/-- The notebook's result-collection loop, from the pagination cell:

    pages = []
    response = textract.get_document_analysis(JobId=textractJobId)
    pages.append(response)
    nextToken = None
    if('NextToken' in response):
        nextToken = response['NextToken']
    while(nextToken):
        response = textract.get_document_analysis(JobId=textractJobId, NextToken=nextToken)
        pages.append(response)
        nextToken = None
        if('NextToken' in response):
            nextToken = response['NextToken']

`svc` maps the optional `NextToken` of a request to the corresponding
response.  `acc` is the `pages` list so far and `reqs` the trace of the
tokens carried by the requests issued so far; the result is the final
`pages` list together with that request trace, or `none` when the fuel
ran out with a token still pending. -/
def collectLoop (svc : Option String → GetDocResponse) :
    Nat → String → List GetDocResponse → List (Option String) →
    Option (List GetDocResponse × List (Option String))
  | 0, _, _, _ => none
  | fuel + 1, tok, acc, reqs =>
    match (svc (some tok)).nextToken with
    | none => some (acc ++ [svc (some tok)], reqs ++ [some tok])
    | some t => collectLoop svc fuel t (acc ++ [svc (some tok)]) (reqs ++ [some tok])


/-- Run the notebook's result-collection cell: the first request carries
no token, then the loop follows the continuation-token chain.  Returns
the collected responses and the trace of request tokens. -/
def collectPagesTrace (svc : Option String → GetDocResponse) (fuel : Nat) :
    Option (List GetDocResponse × List (Option String)) :=
  match (svc none).nextToken with
  | none => some ([svc none], [none])
  | some t => collectLoop svc fuel t [svc none] [none]


/-- The collected `pages` list of the notebook cell, without the request
trace. -/
def collectPages (svc : Option String → GetDocResponse) (fuel : Nat) :
    Option (List GetDocResponse) :=
  (collectPagesTrace svc fuel).map Prod.fst


/-- `isChain svc req ps` says that `ps` is exactly the continuation-token
chain of `svc` starting from the request token `req`: each response is
the service's answer to the request carrying the previous response's
token, every response before the last carries a token, and the last
response omits it. -/
def isChain (svc : Option String → GetDocResponse) :
    Option String → List GetDocResponse → Prop
  | _, [] => False
  | req, [r] => r = svc req ∧ r.nextToken = none
  | req, r :: s :: rest =>
    r = svc req ∧ r.nextToken ≠ none ∧ isChain svc r.nextToken (s :: rest)


/-- Modelled from the spec: one folding step of the external
`textract-trp` library's `Document` constructor, which the notebook
calls as `trp.Document(pages)` but whose code is not part of this
repository.  The library walks the blocks of all collected responses in
order; a block of type `"PAGE"` opens a new logical page, any other
block is attached to the page currently open (blocks before the first
`"PAGE"` block have no page and are dropped).  This matches the
notebook's recorded output, where a single poll response produced a
two-page document.  The state is the list of finished pages plus the
page currently open, if any. -/
def splitStep (st : List (List Block) × Option (List Block)) (b : Block) :
    List (List Block) × Option (List Block) :=
  if b.blockType == "PAGE" then
    match st.2 with
    | none => (st.1, some [b])
    | some cur => (st.1 ++ [cur], some [b])
  else
    match st.2 with
    | none => st
    | some cur => (st.1, some (cur ++ [b]))


/-- Modelled from the spec: the page list of `trp.Document(pages)` (see
`splitStep`): fold the blocks of all responses, in response order, and
close the page still open at the end. -/
def docPages (responses : List GetDocResponse) : List (List Block) :=
  let st := ((responses.map GetDocResponse.blocks).flatten).foldl splitStep ([], none)
  match st.2 with
  | none => st.1
  | some cur => st.1 ++ [cur]


/-- Modelled from the spec: the `text` property of a `trp` page —
the concatenation of the text of its `"LINE"` blocks, each followed by a
newline. -/
def pageText : List Block → String
  | [] => ""
  | b :: bs => (if b.blockType == "LINE" then b.text ++ "\n" else "") ++ pageText bs


/-- The page-numbering loop of the notebook's output cell:

    idx=1
    for page in doc.pages:
        print(color.BOLD + f"Results from page {idx}: \n" + color.END, page.text)
        idx=idx+1

pairing each page, in document order, with its 1-based index and its
text. -/
def numberPages (i : Nat) : List (List Block) → List (Nat × String)
  | [] => []
  | p :: ps => (i, pageText p) :: numberPages (i + 1) ps


/-- The aggregate view the notebook produces from the collected
responses: the `(pageIndex, text)` pairs of `trp.Document(pages)`,
indices starting at 1. -/
def aggregateText (responses : List GetDocResponse) : List (Nat × String) :=
  numberPages 1 (docPages responses)


/-- The number of logical pages tracked by a `splitStep` state. -/
def stPages (st : List (List Block) × Option (List Block)) : Nat :=
  st.1.length + st.2.elim 0 (fun _ => 1)

/-- The Comprehend Medical chunking loop's index sequence, from the cell

    maxLength=20000
    for i in range(0, len(pageText), maxLength):
        response = comprehend_medical_client.detect_entities_v2(Text=pageText[0+i:maxLength+i])

`pyRange stop step start` is Python's `range(start, stop, step)` over
naturals: `start`, `start + step`, ... while below `stop`. -/
def pyRange (stop step : Nat) (start : Nat) : List Nat :=
  if 0 < step ∧ start < stop then
    start :: pyRange stop step (start + step)
  else []
termination_by stop - start
decreasing_by omega

/-- The chunks the Comprehend Medical loop submits: for each index `i`
produced by `range(0, len(text), M)`, the slice `text[i : i+M]`,
modelled on the character list of the text (Python string slicing
clamps at the end of the string). -/
def chunks (text : List Char) (M : Nat) : List (List Char) :=
  (pyRange text.length M 0).map (fun i => (text.drop i).take M)

/-- The train/validation/test split cell of the dataset-preparation
script:

    first_80 = int(len(image_ids) * 0.8)
    next_10 = int(len(image_ids) * 0.9)
    train_ids, val_ids, test_ids = np.split(image_ids, [first_80, next_10])

`np.split(l, [i, j])` is the three sections `l[:i]`, `l[i:j]`, `l[j:]`.
The float expressions `int(n * 0.8)` and `int(n * 0.9)` are modelled
exactly as the floors `n * 8 / 10` and `n * 9 / 10`. -/
def trainValTestSplit (ids : List String) :
    List String × List String × List String :=
  (ids.take (ids.length * 8 / 10),
    (ids.drop (ids.length * 8 / 10)).take
      (ids.length * 9 / 10 - ids.length * 8 / 10),
    ids.drop (ids.length * 9 / 10))

/-- Ten distinct image ids, a concrete input for the split. -/
def ids10 : List String :=
  ["a", "b", "c", "d", "e", "f", "g", "h", "i", "j"]

/-- A poll response whose status is `"IN_PROGRESS"`. -/
def inProgressResp : GetDocResponse := ⟨"IN_PROGRESS", "", [], none⟩

/-- A poll response of a failed job, carrying the service-reported
reason `"INVALID_DOCUMENT"` in its `StatusMessage`. -/
def failedResp : GetDocResponse := ⟨"FAILED", "INVALID_DOCUMENT", [], none⟩

/-- The block opening a new physical page. -/
def pageMarker : Block := ⟨"PAGE", ""⟩

/-- A text line block. -/
def lineBlk (t : String) : Block := ⟨"LINE", t⟩

/-- First result page of the spec's two-page scenario: content `"A"`,
continuation token `"t1"`. -/
def respA : GetDocResponse := ⟨"SUCCEEDED", "", [pageMarker, lineBlk "A"], some "t1"⟩

/-- Second result page of the spec's two-page scenario: content `"B"`,
no continuation token. -/
def respB : GetDocResponse := ⟨"SUCCEEDED", "", [pageMarker, lineBlk "B"], none⟩

/-- The mock page service of the spec's scenario: the token-less first
request yields page `"A"` with token `"t1"`; a tokened request yields
the final page `"B"`. -/
def svcAB : Option String → GetDocResponse
  | none => respA
  | some _ => respB

/-- A mock status service that is `"IN_PROGRESS"` once and then
`"SUCCEEDED"`. -/
def svcW : Nat → GetDocResponse
  | 0 => inProgressResp
  | _ + 1 => ⟨"SUCCEEDED", "", [], none⟩

/-- A mock status service emitting an out-of-order, non-chain sequence:
`IN_PROGRESS`, then the unknown status `"PARTIAL_SUCCESS"`, then
`IN_PROGRESS` again. -/
def svcOut : Nat → GetDocResponse
  | 0 => inProgressResp
  | 1 => ⟨"PARTIAL_SUCCESS", "", [], none⟩
  | _ + 2 => inProgressResp

/-- A result-page response of a job that reports `FAILED` yet still
carries content blocks. -/
def failedPageResp : GetDocResponse :=
  ⟨"FAILED", "INVALID_DOCUMENT", [pageMarker, lineBlk "partial"], none⟩

/-- A single poll response spanning two physical pages: two `"PAGE"`
blocks in one response, as in the notebook's recorded run (one poll
response, two-page document). -/
def twoPageResp : GetDocResponse :=
  ⟨"SUCCEEDED", "", [pageMarker, lineBlk "a", pageMarker, lineBlk "b"], none⟩

/-- The poll loop stops at the first poll whose status is not
`"IN_PROGRESS"` and returns that status with the number of polls
issued. -/
theorem awaitLoop_exit (svc : Nat → GetDocResponse) :
    ∀ (fuel i k : Nat), i ≤ k →
    (∀ j, i ≤ j → j < k → (svc j).jobStatus = "IN_PROGRESS") →
    (svc k).jobStatus ≠ "IN_PROGRESS" → k < i + fuel →
    awaitLoop svc fuel i = some ((svc k).jobStatus, k + 1) := by
  intro fuel
  induction fuel with
  | zero => intro i k hik _ _ hlt; omega
  | succ n ih =>
    intro i k hik hbefore hk hlt
    by_cases hi : i = k
    · subst hi
      simp [awaitLoop, hk]
    · have hik' : i < k := lt_of_le_of_ne hik hi
      have hstat : (svc i).jobStatus = "IN_PROGRESS" := hbefore i le_rfl hik'
      simp only [awaitLoop, hstat, if_pos rfl]
      exact ih (i + 1) k hik' (fun j hj hjk => hbefore j (by omega) hjk) hk (by omega)

/-- If every poll reports `"IN_PROGRESS"`, the loop never finishes: it
exhausts any fuel. -/
theorem awaitLoop_stuck (svc : Nat → GetDocResponse)
    (h : ∀ j, (svc j).jobStatus = "IN_PROGRESS") :
    ∀ (fuel k : Nat), awaitLoop svc fuel k = none := by
  intro fuel
  induction fuel with
  | zero => intro k; rfl
  | succ n ih => intro k; simp [awaitLoop, h k, ih]

/-- The poll loop reads only the `JobStatus` field: rewriting every
`StatusMessage` leaves its result unchanged. -/
theorem awaitLoop_setMessage (svc : Nat → GetDocResponse) (m : String) :
    ∀ (fuel k : Nat),
    awaitLoop (fun j => setMessage m (svc j)) fuel k = awaitLoop svc fuel k := by
  intro fuel
  induction fuel with
  | zero => intro k; rfl
  | succ n ih =>
    intro k
    simp only [awaitLoop]
    have hfix : (setMessage m (svc k)).jobStatus = (svc k).jobStatus := rfl
    rw [hfix]
    by_cases h : (svc k).jobStatus = "IN_PROGRESS" <;> simp [h, ih]

/-- A continuation-token chain is never empty. -/
theorem isChain_ne_nil (svc : Option String → GetDocResponse)
    (req : Option String) (ps : List GetDocResponse)
    (h : isChain svc req ps) : ps ≠ [] := by
  cases ps with
  | nil => exact absurd h (by simp [isChain])
  | cons r rest => simp

/-- Soundness of the collection loop: when it returns, it has appended
exactly the continuation-token chain starting at the pending token, and
the request trace extends by that token followed by the tokens of all
appended responses but the last. -/
theorem collectLoop_sound (svc : Option String → GetDocResponse) :
    ∀ (fuel : Nat) (tok : String) (acc : List GetDocResponse)
      (reqs : List (Option String)) (ps : List GetDocResponse)
      (rs : List (Option String)),
    collectLoop svc fuel tok acc reqs = some (ps, rs) →
    ∃ ps', ps = acc ++ ps' ∧
      rs = reqs ++ (some tok :: ps'.dropLast.map GetDocResponse.nextToken) ∧
      isChain svc (some tok) ps' := by
  intro fuel
  induction fuel with
  | zero => intro tok acc reqs ps rs h; exact absurd h (by simp [collectLoop])
  | succ n ih =>
    intro tok acc reqs ps rs h
    simp only [collectLoop] at h
    cases htok : (svc (some tok)).nextToken with
    | none =>
      rw [htok] at h
      simp only [Option.some.injEq, Prod.mk.injEq] at h
      refine ⟨[svc (some tok)], h.1.symm, ?_, rfl, htok⟩
      simp [h.2.symm]
    | some t =>
      rw [htok] at h
      obtain ⟨ps', hps, hrs, hchain⟩ := ih t (acc ++ [svc (some tok)]) (reqs ++ [some tok]) ps rs h
      have hne : ps' ≠ [] := isChain_ne_nil svc (some t) ps' hchain
      obtain ⟨q, qs, rfl⟩ := List.exists_cons_of_ne_nil hne
      refine ⟨svc (some tok) :: q :: qs, by simpa using hps, ?_, ?_⟩
      · rw [hrs]
        simp [htok]
      · exact ⟨rfl, by simp [htok], by rw [htok]; exact hchain⟩

/-- Soundness of the full collection cell: when it returns, the pages
are exactly the continuation-token chain started by the token-less first
request, and the request trace is: no token first, then precisely the
token of each previous response. -/
theorem collectPagesTrace_sound (svc : Option String → GetDocResponse)
    (fuel : Nat) (ps : List GetDocResponse) (rs : List (Option String))
    (h : collectPagesTrace svc fuel = some (ps, rs)) :
    isChain svc none ps ∧
    rs = none :: ps.dropLast.map GetDocResponse.nextToken := by
  simp only [collectPagesTrace] at h
  cases htok : (svc none).nextToken with
  | none =>
    rw [htok] at h
    simp only [Option.some.injEq, Prod.mk.injEq] at h
    constructor
    · rw [← h.1]
      exact ⟨rfl, htok⟩
    · rw [← h.1, ← h.2]
      simp
  | some t =>
    rw [htok] at h
    obtain ⟨ps', hps, hrs, hchain⟩ := collectLoop_sound svc fuel t [svc none] [none] ps rs h
    have hne : ps' ≠ [] := isChain_ne_nil svc (some t) ps' hchain
    obtain ⟨q, qs, rfl⟩ := List.exists_cons_of_ne_nil hne
    constructor
    · rw [hps]
      exact ⟨rfl, by simp [htok], by rw [htok]; exact hchain⟩
    · rw [hrs, hps]
      simp [htok]

/-- The collection loop never reads the `JobStatus` field: rewriting
every status changes only the statuses stored in the collected pages,
never the control flow or the request trace. -/
theorem collectLoop_setStatus (svc : Option String → GetDocResponse) (s : String) :
    ∀ (fuel : Nat) (tok : String) (acc : List GetDocResponse)
      (reqs : List (Option String)),
    collectLoop (fun t => setStatus s (svc t)) fuel tok (acc.map (setStatus s)) reqs =
      (collectLoop svc fuel tok acc reqs).map
        (fun pr => (pr.1.map (setStatus s), pr.2)) := by
  intro fuel
  induction fuel with
  | zero => intro tok acc reqs; rfl
  | succ n ih =>
    intro tok acc reqs
    have hnt : (setStatus s (svc (some tok))).nextToken = (svc (some tok)).nextToken := rfl
    simp only [collectLoop]
    rw [hnt]
    cases htok : (svc (some tok)).nextToken with
    | none => simp
    | some t =>
      have hacc : acc.map (setStatus s) ++ [setStatus s (svc (some tok))] =
          (acc ++ [svc (some tok)]).map (setStatus s) := by simp
      rw [hacc]
      exact ih t (acc ++ [svc (some tok)]) (reqs ++ [some tok])

/-- The full collection cell never reads the `JobStatus` field. -/
theorem collectPagesTrace_setStatus (svc : Option String → GetDocResponse)
    (s : String) (fuel : Nat) :
    collectPagesTrace (fun t => setStatus s (svc t)) fuel =
      (collectPagesTrace svc fuel).map
        (fun pr => (pr.1.map (setStatus s), pr.2)) := by
  have hnt : (setStatus s (svc none)).nextToken = (svc none).nextToken := rfl
  simp only [collectPagesTrace]
  rw [hnt]
  cases htok : (svc none).nextToken with
  | none => simp
  | some t =>
    have hacc : [setStatus s (svc none)] = [svc none].map (setStatus s) := by simp
    rw [hacc]
    exact collectLoop_setStatus svc s fuel t [svc none] [none]

/-- Folding blocks adds one logical page per `"PAGE"` block. -/
theorem foldl_splitStep_count (bs : List Block) :
    ∀ st, stPages (bs.foldl splitStep st) =
      stPages st + bs.countP (fun b => b.blockType == "PAGE") := by
  induction bs with
  | nil => intro st; simp
  | cons b rest ih =>
    intro st
    rw [List.foldl_cons, ih, List.countP_cons]
    obtain ⟨ps, cur⟩ := st
    cases hb : b.blockType == "PAGE" <;> cases cur <;>
      simp [splitStep, stPages, hb] <;> omega

/-- The page count of the aggregate document is the number of `"PAGE"`
blocks in the collected responses. -/
theorem docPages_length (responses : List GetDocResponse) :
    (docPages responses).length =
      ((responses.map GetDocResponse.blocks).flatten).countP
        (fun b => b.blockType == "PAGE") := by
  have h := foldl_splitStep_count ((responses.map GetDocResponse.blocks).flatten) ([], none)
  simp only [docPages]
  generalize hst : ((responses.map GetDocResponse.blocks).flatten).foldl splitStep ([], none) = st at h
  obtain ⟨ps, cur⟩ := st
  cases cur with
  | none =>
    simp only [stPages, Option.elim_none, Option.elim_some, List.length_nil] at h
    simpa using h
  | some cur =>
    simp only [stPages, Option.elim_none, Option.elim_some, List.length_nil] at h
    simp only [List.length_append, List.length_cons, List.length_nil]
    omega

/-- The first components of the numbering loop are consecutive indices
starting at `i`. -/
theorem numberPages_map_fst (ps : List (List Block)) :
    ∀ i, (numberPages i ps).map Prod.fst = List.range' i ps.length := by
  induction ps with
  | nil => intro i; simp [numberPages]
  | cons p rest ih => intro i; simp [numberPages, List.range'_succ, ih]

/-- The second components of the numbering loop are the page texts, in
page order. -/
theorem numberPages_map_snd (ps : List (List Block)) :
    ∀ i, (numberPages i ps).map Prod.snd = ps.map pageText := by
  induction ps with
  | nil => intro i; simp [numberPages]
  | cons p rest ih => intro i; simp [numberPages, ih]

/-- `pageText` distributes over appending block lists. -/
theorem pageText_append (bs1 bs2 : List Block) :
    pageText (bs1 ++ bs2) = pageText bs1 ++ pageText bs2 := by
  induction bs1 with
  | nil => simp [pageText]
  | cons b rest ih => simp [pageText, ih, String.append_assoc]

/-- C9: the status-poll loop treats every status other than
`"IN_PROGRESS"` as terminal and raises nothing: it issues one
unconditional poll, re-polls only while the status is `"IN_PROGRESS"`,
and on any other value (`SUCCEEDED`, `FAILED`, or unknown) it exits
normally with that value after `k + 1` polls; result collection is
oblivious to the observed status (rewriting every response's status
changes only the statuses stored in the collected pages). -/
theorem C9_terminal_statuses (svc : Nat → GetDocResponse) (k fuel : Nat)
    (psvc : Option String → GetDocResponse) (pfuel : Nat) (s : String)
    (hbefore : ∀ j, j < k → (svc j).jobStatus = "IN_PROGRESS")
    (hk : (svc k).jobStatus ≠ "IN_PROGRESS")
    (hfuel : k < fuel) :
    awaitCompletion svc fuel = some ((svc k).jobStatus, k + 1) ∧
    collectPages (fun t => setStatus s (psvc t)) pfuel =
      (collectPages psvc pfuel).map (fun ps => ps.map (setStatus s)) := by
  constructor
  · exact awaitLoop_exit svc fuel 0 k (Nat.zero_le k)
      (fun j _ hj => hbefore j hj) hk (by omega)
  · simp only [collectPages, collectPagesTrace_setStatus psvc s pfuel]
    cases collectPagesTrace psvc pfuel <;> simp

/-- C9 witness: a service that is `IN_PROGRESS` once and then
`SUCCEEDED` makes the loop exit normally after 2 polls, and collection
on the scenario page service ignores a status rewrite. -/
theorem C9_terminal_statuses_witness :
    awaitCompletion svcW 3 = some ("SUCCEEDED", 2) ∧
    collectPages (fun t => setStatus "FAILED" (svcAB t)) 5 =
      (collectPages svcAB 5).map (fun ps => ps.map (setStatus "FAILED")) := by
  have h := C9_terminal_statuses svcW 1 3 svcAB 5 "FAILED"
    (fun j hj => by
      have hj0 : j = 0 := by omega
      subst hj0; rfl)
    (by decide) (by omega)
  exact h

/-- C3 counterexample: with a service that reports `FAILED` with reason
`"INVALID_DOCUMENT"`, the poll loop returns normally with the value
`("FAILED", 1)` — it raises nothing (the code defines no
`JobFailedError` and never reads the reason), contradicting the claim
that it fails rather than returning normally. -/
theorem C3_jobFailed_counterexample :
    awaitCompletion (fun _ => failedResp) 5 = some ("FAILED", 1) ∧
    failedResp.statusMessage = "INVALID_DOCUMENT" :=
  ⟨rfl, rfl⟩

/-- C3 amended: for every job whose status poll returns `FAILED`, the
poll loop exits normally with status `"FAILED"` after that poll; the
service-reported reason is never read (rewriting every `StatusMessage`
leaves the result unchanged) and no exception is raised. -/
theorem C3_failed_exits_normally (svc : Nat → GetDocResponse)
    (k fuel : Nat) (m : String)
    (hbefore : ∀ j, j < k → (svc j).jobStatus = "IN_PROGRESS")
    (hk : (svc k).jobStatus = "FAILED")
    (hfuel : k < fuel) :
    awaitCompletion svc fuel = some ("FAILED", k + 1) ∧
    awaitCompletion (fun j => setMessage m (svc j)) fuel = some ("FAILED", k + 1) := by
  have hne : (svc k).jobStatus ≠ "IN_PROGRESS" := by rw [hk]; decide
  have h1 : awaitLoop svc fuel 0 = some ((svc k).jobStatus, k + 1) :=
    awaitLoop_exit svc fuel 0 k (Nat.zero_le k) (fun j _ hj => hbefore j hj) hne (by omega)
  rw [hk] at h1
  refine ⟨h1, ?_⟩
  show awaitLoop (fun j => setMessage m (svc j)) fuel 0 = some ("FAILED", k + 1)
  rw [awaitLoop_setMessage svc m fuel 0]
  exact h1

/-- C3 witness: the amended statement at the `FAILED` mock service. -/
theorem C3_failed_exits_normally_witness :
    awaitCompletion (fun _ => failedResp) 6 = some ("FAILED", 1) ∧
    awaitCompletion (fun j => setMessage "" ((fun _ => failedResp) j)) 6 =
      some ("FAILED", 1) :=
  C3_failed_exits_normally (fun _ => failedResp) 0 6 ""
    (fun j hj => absurd hj (Nat.not_lt_zero j)) rfl (by omega)

/-- C4 counterexample: with a service that never leaves `IN_PROGRESS`,
the poll loop is still running after 2 polls — the bound the claim
demands — and equally after 100: no `TimeoutError` is ever raised and
the loop does not terminate within any bound (`none` = the poll budget
was exhausted with the loop still going). -/
theorem C4_timeout_counterexample :
    awaitCompletion (fun _ => inProgressResp) 2 = none ∧
    awaitCompletion (fun _ => inProgressResp) 100 = none :=
  ⟨rfl, rfl⟩

/-- C4 amended: the poll loop has no `maxWait` bound at all: if the
service never leaves `IN_PROGRESS` the loop never terminates — it
exhausts every poll budget, and no `TimeoutError` exists in the code. -/
theorem C4_no_timeout_bound (svc : Nat → GetDocResponse) (fuel : Nat)
    (h : ∀ j, (svc j).jobStatus = "IN_PROGRESS") :
    awaitCompletion svc fuel = none :=
  awaitLoop_stuck svc h fuel 0

/-- C4 witness: the amended statement at the always-`IN_PROGRESS`
service with a budget of 7 polls. -/
theorem C4_no_timeout_bound_witness :
    awaitCompletion (fun _ => inProgressResp) 7 = none :=
  C4_no_timeout_bound (fun _ => inProgressResp) 7 (fun _ => rfl)

/-- C6 counterexample: on the out-of-order sequence `IN_PROGRESS`,
`"PARTIAL_SUCCESS"` (an unknown status), `IN_PROGRESS`, the poll loop
returns normally, treating the unknown value as completion after 2
polls; no `ProtocolError` is raised (none exists in the code) and the
non-chain transition back to `IN_PROGRESS` is never even observed. -/
theorem C6_protocol_counterexample :
    awaitCompletion svcOut 9 = some ("PARTIAL_SUCCESS", 2) ∧
    (svcOut 2).jobStatus = "IN_PROGRESS" :=
  ⟨rfl, rfl⟩

/-- C6 amended: the poll loop performs no transition validation: it
stops at the first non-`IN_PROGRESS` status, accepts any value there as
completion, and never observes any later status — two services agreeing
up to that poll give the same outcome no matter what (out-of-order or
unknown) statuses follow, and the loop always returns normally. -/
theorem C6_no_transition_check (svc svc2 : Nat → GetDocResponse) (k fuel : Nat)
    (hagree : ∀ j, j ≤ k → svc2 j = svc j)
    (hbefore : ∀ j, j < k → (svc j).jobStatus = "IN_PROGRESS")
    (hk : (svc k).jobStatus ≠ "IN_PROGRESS")
    (hfuel : k < fuel) :
    awaitCompletion svc2 fuel = some ((svc k).jobStatus, k + 1) := by
  have h2 : awaitLoop svc2 fuel 0 = some ((svc2 k).jobStatus, k + 1) :=
    awaitLoop_exit svc2 fuel 0 k (Nat.zero_le k)
      (fun j _ hj => by rw [hagree j (le_of_lt hj)]; exact hbefore j hj)
      (by rw [hagree k le_rfl]; exact hk) (by omega)
  rw [hagree k le_rfl] at h2
  exact h2

/-- C6 witness: the amended statement on the fuzzed out-of-order mock
service, both as the reference and as the agreeing service. -/
theorem C6_no_transition_check_witness :
    awaitCompletion svcOut 5 = some ("PARTIAL_SUCCESS", 2) :=
  C6_no_transition_check svcOut svcOut 1 5 (fun j _ => rfl)
    (fun j hj => by
      have hj0 : j = 0 := by omega
      subst hj0; rfl)
    (by decide) (by omega)

/-- C2: the collection loop follows the continuation-token chain: the
pages returned are exactly the chain of responses in which the first
request carries no token, each subsequent request carries exactly the
previous response's token, every response before the last carries a
token, and the loop stops at the first response that omits it (the
request trace is `none` followed by the tokens of all responses but the
last, so no request follows the token-less response); in particular the
mock service returning pages `A`, `B` with tokens `t1` then none yields
`[A, B]` in order with exactly the two requests `[none, some "t1"]`. -/
theorem C2_tokenChain (svc : Option String → GetDocResponse) (fuel : Nat)
    (ps : List GetDocResponse) (rs : List (Option String))
    (h : collectPagesTrace svc fuel = some (ps, rs)) :
    isChain svc none ps ∧
    rs = none :: ps.dropLast.map GetDocResponse.nextToken ∧
    rs.length = ps.length ∧
    collectPagesTrace svcAB 5 = some ([respA, respB], [none, some "t1"]) := by
  obtain ⟨hchain, hrs⟩ := collectPagesTrace_sound svc fuel ps rs h
  have hne : ps ≠ [] := isChain_ne_nil svc none ps hchain
  have hpos : 0 < ps.length := List.length_pos.mpr hne
  refine ⟨hchain, hrs, ?_, rfl⟩
  rw [hrs]
  simp only [List.length_cons, List.length_map, List.length_dropLast]
  omega

/-- C2 witness: the chain property evaluated on the spec's two-page mock
service. -/
theorem C2_tokenChain_witness :
    isChain svcAB none [respA, respB] ∧
    ([none, some "t1"] : List (Option String)) =
      none :: ([respA, respB].dropLast.map GetDocResponse.nextToken) ∧
    ([none, some "t1"] : List (Option String)).length =
      ([respA, respB] : List GetDocResponse).length ∧
    collectPagesTrace svcAB 5 = some ([respA, respB], [none, some "t1"]) :=
  C2_tokenChain svcAB 5 [respA, respB] [none, some "t1"] rfl

/-- C5 counterexample: called while the job reports `FAILED` (not
`SUCCEEDED`), the collection cell does not fail with
`InvalidStateError` — no status check and no such error exist in the
code — and it returns data: the response of the failed job. -/
theorem C5_invalidState_counterexample :
    collectPages (fun _ => failedPageResp) 5 = some [failedPageResp] ∧
    failedPageResp.jobStatus = "FAILED" :=
  ⟨rfl, rfl⟩

/-- C5 amended: the collection cell performs no completion check and
cannot fail with `InvalidStateError` (none exists): its control flow is
entirely status-independent (rewriting every response's status changes
only the stored statuses), and whenever it returns, it returns the
complete continuation-token chain — never a partial one. -/
theorem C5_collect_ignores_status (svc : Option String → GetDocResponse)
    (fuel : Nat) (ps : List GetDocResponse) (rs : List (Option String)) (s : String)
    (h : collectPagesTrace svc fuel = some (ps, rs)) :
    ps ≠ [] ∧ isChain svc none ps ∧
    collectPagesTrace (fun t => setStatus s (svc t)) fuel =
      some (ps.map (setStatus s), rs) := by
  obtain ⟨hchain, _⟩ := collectPagesTrace_sound svc fuel ps rs h
  refine ⟨isChain_ne_nil svc none ps hchain, hchain, ?_⟩
  rw [collectPagesTrace_setStatus svc s fuel, h]
  rfl

/-- C5 witness: the amended statement on a service whose job reports
`FAILED`. -/
theorem C5_collect_ignores_status_witness :
    ([failedPageResp] : List GetDocResponse) ≠ [] ∧
    isChain (fun _ => failedPageResp) none [failedPageResp] ∧
    collectPagesTrace (fun t => setStatus "SUCCEEDED" ((fun _ => failedPageResp) t)) 5 =
      some ([failedPageResp].map (setStatus "SUCCEEDED"), [none]) :=
  C5_collect_ignores_status (fun _ => failedPageResp) 5 [failedPageResp] [none]
    "SUCCEEDED" rfl

/-- C1 counterexample: one poll response spanning two physical pages
(two `"PAGE"` blocks), as in the notebook's recorded run: the aggregate
document has 2 pages while exactly 1 poll response was received, so the
aggregate page count equals the number of physical pages, not the
number of poll responses. -/
theorem C1_pageCount_counterexample :
    (docPages [twoPageResp]).length = 2 ∧
    ([twoPageResp] : List GetDocResponse).length = 1 ∧
    (docPages [twoPageResp]).length ≠ ([twoPageResp] : List GetDocResponse).length := by
  refine ⟨by decide, rfl, by decide⟩

/-- C1 amended: the aggregate document preserves the order in which the
service returned the pages, and its page count equals the number of
`"PAGE"` blocks across the collected responses — the number of physical
pages — not the number of poll responses: the page indices are `1, 2,
...` in order and each entry carries the text of the corresponding page
in block order. -/
theorem C1_pageCount_amended (responses : List GetDocResponse) :
    (docPages responses).length =
      ((responses.map GetDocResponse.blocks).flatten).countP
        (fun b => b.blockType == "PAGE") ∧
    (aggregateText responses).map Prod.fst =
      List.range' 1 (docPages responses).length ∧
    (aggregateText responses).map Prod.snd =
      (docPages responses).map pageText :=
  ⟨docPages_length responses, numberPages_map_fst (docPages responses) 1,
    numberPages_map_snd (docPages responses) 1⟩

/-- C8: `aggregateText` is a pure function of the collected responses:
it is deterministic (equal inputs give equal outputs — it is a Lean
function of its argument alone, with no effects in the embedding),
produces exactly one `(pageIndex, text)` pair per page so page
boundaries are preserved, pairs the pages with their texts in order,
and the page text concatenates the textual content blockwise
(`pageText` is an append homomorphism on block lists). -/
theorem C8_aggregateText_pure (responses : List GetDocResponse)
    (bs1 bs2 : List Block) :
    aggregateText responses = aggregateText responses ∧
    (aggregateText responses).length = (docPages responses).length ∧
    (aggregateText responses).map Prod.snd = (docPages responses).map pageText ∧
    pageText (bs1 ++ bs2) = pageText bs1 ++ pageText bs2 := by
  refine ⟨rfl, ?_, numberPages_map_snd (docPages responses) 1, pageText_append bs1 bs2⟩
  have h := numberPages_map_snd (docPages responses) 1
  calc (aggregateText responses).length
      = ((aggregateText responses).map Prod.snd).length := (List.length_map _ _).symm
    _ = ((docPages responses).map pageText).length := by
          rw [show (aggregateText responses).map Prod.snd =
            (docPages responses).map pageText from h]
    _ = (docPages responses).length := List.length_map _ _

/-- The number of indices `range(start, stop, step)` produces is the
ceiling of `(stop - start) / step`. -/
theorem pyRange_len (stop step : Nat) (hstep : 0 < step) :
    ∀ (n start : Nat), stop - start ≤ n →
    (pyRange stop step start).length = (stop - start + step - 1) / step := by
  intro n
  induction n with
  | zero =>
    intro start hb
    rw [pyRange, if_neg (by omega)]
    have h0 : stop - start = 0 := by omega
    rw [h0, List.length_nil, Nat.zero_add]
    exact (Nat.div_eq_of_lt (by omega)).symm
  | succ n ih =>
    intro start hb
    rw [pyRange]
    by_cases hc : start < stop
    · rw [if_pos ⟨hstep, hc⟩, List.length_cons, ih (start + step) (by omega)]
      have hsub : stop - (start + step) = stop - start - step := by omega
      rw [hsub]
      have hrw : stop - start + step - 1 = (stop - start - 1) + step := by omega
      rw [hrw, Nat.add_div_right _ hstep]
      congr 1
      by_cases hds : step ≤ stop - start
      · congr 1
        omega
      · have h1 : stop - start - step = 0 := by omega
        rw [h1, Nat.zero_add]
        rw [Nat.div_eq_of_lt (by omega), Nat.div_eq_of_lt (by omega)]
    · rw [if_neg (by omega), List.length_nil]
      have h0 : stop - start = 0 := by omega
      rw [h0, Nat.zero_add]
      exact (Nat.div_eq_of_lt (by omega)).symm

/-- Concatenating the slices `text[i : i+M]` over the indices
`range(start, len(text), M)` restores `text` from position `start`
onward. -/
theorem chunks_flatten (text : List Char) (M : Nat) (hM : 0 < M) :
    ∀ (n start : Nat), text.length - start ≤ n →
    ((pyRange text.length M start).map
      (fun i => (text.drop i).take M)).flatten = text.drop start := by
  intro n
  induction n with
  | zero =>
    intro start hb
    rw [pyRange, if_neg (by omega)]
    simp only [List.map_nil, List.flatten_nil]
    exact (List.drop_eq_nil_of_le (by omega)).symm
  | succ n ih =>
    intro start hb
    rw [pyRange]
    by_cases hc : start < text.length
    · rw [if_pos ⟨hM, hc⟩]
      simp only [List.map_cons, List.flatten_cons]
      rw [ih (start + M) (by omega)]
      have hdd : text.drop (start + M) = (text.drop start).drop M := by
        rw [List.drop_drop, Nat.add_comm]
      rw [hdd, List.take_append_drop]
    · rw [if_neg (by omega)]
      simp only [List.map_nil, List.flatten_nil]
      exact (List.drop_eq_nil_of_le (by omega)).symm

/-- C7: the Comprehend Medical chunking loop, with maximum chunk size
`M = 20000`, slices `text[i : i+M]` for `i = 0, M, 2M, ...` and
produces exactly `ceil(L / M)` chunks for a text of length `L`, each of
size at most `M`, whose in-order concatenation is the original text
(round-trip law, fixed windows, no overlap). -/
theorem C7_chunking_roundtrip (text : List Char) :
    (chunks text 20000).length = (text.length + 20000 - 1) / 20000 ∧
    (∀ c ∈ chunks text 20000, c.length ≤ 20000) ∧
    (chunks text 20000).flatten = text := by
  refine ⟨?_, ?_, ?_⟩
  · rw [chunks, List.length_map]
    have h := pyRange_len text.length 20000 (by omega) text.length 0 (by omega)
    rw [h, Nat.sub_zero]
  · intro c hc
    rw [chunks, List.mem_map] at hc
    obtain ⟨i, _, rfl⟩ := hc
    exact List.length_take_le 20000 (text.drop i)
  · have h := chunks_flatten text 20000 (by omega) text.length 0 (by omega)
    rw [chunks]
    rw [h, List.drop_zero]

/-- C10: the train/validation/test split cell — shuffle, then
`np.split` at `int(n*0.8)` and `int(n*0.9)` — partitions the shuffled
id list: the three sections concatenate back to the list, their sizes
are `floor(0.8 n)`, `floor(0.9 n) - floor(0.8 n)` and
`n - floor(0.9 n)`, and (the ids being distinct) they are pairwise
disjoint. -/
theorem C10_split_partition (ids : List String) (h : ids.Nodup) :
    (trainValTestSplit ids).1 ++
      ((trainValTestSplit ids).2.1 ++ (trainValTestSplit ids).2.2) = ids ∧
    (trainValTestSplit ids).1.length = ids.length * 8 / 10 ∧
    (trainValTestSplit ids).2.1.length =
      ids.length * 9 / 10 - ids.length * 8 / 10 ∧
    (trainValTestSplit ids).2.2.length = ids.length - ids.length * 9 / 10 ∧
    (trainValTestSplit ids).1.Disjoint (trainValTestSplit ids).2.1 ∧
    (trainValTestSplit ids).1.Disjoint (trainValTestSplit ids).2.2 ∧
    (trainValTestSplit ids).2.1.Disjoint (trainValTestSplit ids).2.2 := by
  have hij : ids.length * 8 / 10 ≤ ids.length * 9 / 10 := by omega
  have hjn : ids.length * 9 / 10 ≤ ids.length := by omega
  simp only [trainValTestSplit]
  have hcat : ids.take (ids.length * 8 / 10) ++
      ((ids.drop (ids.length * 8 / 10)).take
          (ids.length * 9 / 10 - ids.length * 8 / 10) ++
        ids.drop (ids.length * 9 / 10)) = ids := by
    have hdd : ids.drop (ids.length * 9 / 10) =
        ((ids.drop (ids.length * 8 / 10)).drop
          (ids.length * 9 / 10 - ids.length * 8 / 10)) := by
      rw [List.drop_drop]
      congr 1
      omega
    rw [hdd, List.take_append_drop, List.take_append_drop]
  have hnd : (ids.take (ids.length * 8 / 10) ++
      ((ids.drop (ids.length * 8 / 10)).take
          (ids.length * 9 / 10 - ids.length * 8 / 10) ++
        ids.drop (ids.length * 9 / 10))).Nodup := by
    rw [hcat]; exact h
  rw [List.nodup_append] at hnd
  obtain ⟨hA, hBC, hAd⟩ := hnd
  rw [List.nodup_append] at hBC
  obtain ⟨hB, hC, hBd⟩ := hBC
  rw [List.disjoint_append_right] at hAd
  refine ⟨hcat, ?_, ?_, ?_, hAd.1, hAd.2, hBd⟩
  · rw [List.length_take]
    omega
  · rw [List.length_take, List.length_drop]
    omega
  · rw [List.length_drop]

/-- C10 witness: ten distinct ids split 8 / 1 / 1 and concatenate back
in order. -/
theorem C10_split_partition_witness :
    (trainValTestSplit ids10).1 ++
      ((trainValTestSplit ids10).2.1 ++ (trainValTestSplit ids10).2.2) = ids10 ∧
    (trainValTestSplit ids10).1.length = 8 ∧
    (trainValTestSplit ids10).2.1.length = 1 ∧
    (trainValTestSplit ids10).2.2.length = 1 ∧
    (trainValTestSplit ids10).1.Disjoint (trainValTestSplit ids10).2.1 ∧
    (trainValTestSplit ids10).1.Disjoint (trainValTestSplit ids10).2.2 ∧
    (trainValTestSplit ids10).2.1.Disjoint (trainValTestSplit ids10).2.2 :=
  C10_split_partition ids10 (by decide)
